import Mathlib

/-!
# Verification of the LexMedia playback session manager and link classifier

Shallow embedding of the playback session manager (`PlayerContext` provider),
the link classifier (`parseLink`), and the progress-status derivation
(`resourceService.updateProgress`) of the LexMedia repository, together with
theorems settling the specification's claims about them.

Modelling conventions:
* JavaScript numbers (playback seconds) are modelled as rationals `ℚ`.
* A `Resource` is identified by its id (the session manager compares
  resources only through `.id`).
* `Math.floor(Math.random() * list.length)` draws are modelled by an explicit
  list of candidate indices `draws : List Nat`; the source's `do/while` retry
  loop walks this list.  An exhausted draw list is modelled as leaving the
  state unchanged (the source loop would keep drawing).
* The external player handle (`playerRef.current`) is modelled as
  `Option Bool`: `none` = no handle attached, `some b` with `b = true` = an
  attached handle whose control methods throw.  Operations return
  `Except PlayerState PlayerState`; `Except.error s` means the call threw
  with the component state being `s` at the moment of the throw.
* The four localStorage slots and the `useEffect` writers are modelled by
  `Storage` and `saveToLocalStorage`.
-/

namespace LexMedia

/-- `export type ResourceStatus = 'new' | 'in_progress' | 'watched'`. -/
inductive ResourceStatus where
  | new
  | in_progress
  | watched
deriving DecidableEq, Repr

/-- Status computation of `resourceService.updateProgress`:
`let status = 'in_progress'; if (playedSeconds === 0) status = 'new';
if (totalSeconds > 0 && playedSeconds >= totalSeconds * 0.95) status = 'watched'`. -/
def deriveStatus (playedSeconds totalSeconds : ℚ) : ResourceStatus :=
  let status := ResourceStatus.in_progress
  let status := if playedSeconds = 0 then ResourceStatus.new else status
  let status :=
    if 0 < totalSeconds ∧ totalSeconds * (95 / 100) ≤ playedSeconds then
      ResourceStatus.watched
    else status
  status

/-- A saved media resource; the session manager distinguishes resources only
by their id (`findIndex(r => r.id === current.id)`), so the model carries the
id alone. -/
structure Resource where
  id : Nat
deriving DecidableEq, Repr

/-- The state held by `PlayerProvider`: `currentResource`, `isPlaying`,
`isRepeat`, `isShuffle`, `queue`, `currentTime` (the `duration` field plays
no role in any claim and is omitted). -/
structure PlayerState where
  currentResource : Option Resource
  isPlaying : Bool
  isRepeat : Bool
  isShuffle : Bool
  queue : List Resource
  currentTime : ℚ
deriving DecidableEq, Repr

/-- The initial provider state (`useState` defaults). -/
def initialState : PlayerState :=
  { currentResource := none, isPlaying := false, isRepeat := false,
    isShuffle := false, queue := [], currentTime := 0 }

/-- The shuffle selection loop of `playNext`:
`do { nextIdx = Math.floor(Math.random() * list.length) }
while (list.length > 1 && list[nextIdx].id === current.id)`.
Each entry of `draws` is one candidate index (always `< list.length` in the
source, since `Math.random () < 1`); the loop accepts the first draw for which
the `while` condition fails.  `none` models an exhausted draw list. -/
def shufflePick (list : List Resource) (current : Resource) :
    List Nat → Option Resource
  | [] => none
  | d :: rest =>
    if h : d < list.length then
      if 1 < list.length ∧ (list.get ⟨d, h⟩).id = current.id then
        shufflePick list current rest
      else some (list.get ⟨d, h⟩)
    else none

/-- `playNext` of `PlayerProvider`:
guards `!current || list.length === 0`; shuffle branch uses the random loop;
sequential branch computes `currentIndex = list.findIndex(r => r.id ===
current.id)` and either advances (`currentIndex !== -1 && currentIndex <
list.length - 1`), loops back to `list[0]` when repeat is on, or clears the
playing flag.  (Lean's `List.findIdx` returns `list.length` where JavaScript
`findIndex` returns `-1`; the advance condition `idx + 1 < list.length`
matches `currentIndex !== -1 && currentIndex < list.length - 1`.) -/
def playNext (draws : List Nat) (s : PlayerState) : PlayerState :=
  match s.currentResource with
  | none => s
  | some current =>
    if s.queue.isEmpty then s
    else if s.isShuffle then
      match shufflePick s.queue current draws with
      | some r => { s with currentResource := some r }
      | none => s
    else if h : s.queue.findIdx (fun r => r.id == current.id) + 1 < s.queue.length then
      let nxt := s.queue.get ⟨s.queue.findIdx (fun r => r.id == current.id) + 1, h⟩
      { s with currentResource := some nxt }
    else if s.isRepeat && !s.queue.isEmpty then
      { s with currentResource := s.queue.head? }
    else
      { s with isPlaying := false }

/-- `playPrev` of `PlayerProvider`: guard `!current || list.length === 0`;
`currentIndex > 0` steps back one; otherwise repeat wraps to
`list[list.length - 1]`; otherwise nothing.  (`currentIndex > 0` in the
source requires an actual hit, i.e. found and positive; not-found is `-1`.) -/
def playPrev (s : PlayerState) : PlayerState :=
  match s.currentResource with
  | none => s
  | some current =>
    if s.queue.isEmpty then s
    else if h : 0 < s.queue.findIdx (fun r => r.id == current.id) ∧
        s.queue.findIdx (fun r => r.id == current.id) < s.queue.length then
      let prv := s.queue.get ⟨s.queue.findIdx (fun r => r.id == current.id) - 1, by omega⟩
      { s with currentResource := some prv }
    else if s.isRepeat then
      { s with currentResource := s.queue.getLast? }
    else
      s

/-- `playResource(resource, newQueue?)`: sets the current resource and the
playing flag; replaces the queue when one is given, otherwise seeds the
one-item queue `[resource]` when the existing queue is empty. -/
def playResource (resource : Resource) (newQueue : Option (List Resource))
    (s : PlayerState) : PlayerState :=
  let s1 := { s with currentResource := some resource, isPlaying := true }
  match newQueue with
  | some q => { s1 with queue := q }
  | none => if s.queue.isEmpty then { s1 with queue := [resource] } else s1

/-- `togglePlay`: `if (!playerRef.current) return;` then calls `pauseVideo()`
or `playVideo()` on the handle (neither call mutates the provider state; the
playing flag changes only through the separate state-change event callback).
There is no `try/catch`: a throwing handle propagates the exception. -/
def togglePlay (handle : Option Bool) (s : PlayerState) :
    Except PlayerState PlayerState :=
  match handle with
  | none => Except.ok s
  | some throws => if throws then Except.error s else Except.ok s

/-- The state mutation of `stopPlayback`: clears the current resource and the
playing flag and resets the current time. -/
def stopPlaybackState (s : PlayerState) : PlayerState :=
  { s with currentResource := none, isPlaying := false, currentTime := 0 }

/-- `stopPlayback`: performs its state mutations first, then calls
`stopVideo()` on the handle when one is attached; no `try/catch`, so a
throwing handle propagates after the state has already changed. -/
def stopPlayback (handle : Option Bool) (s : PlayerState) :
    Except PlayerState PlayerState :=
  let s1 := stopPlaybackState s
  match handle with
  | none => Except.ok s1
  | some throws => if throws then Except.error s1 else Except.ok s1

/-- `seekTo(seconds)`: when a handle is attached it calls `seekTo` on it and
then sets `currentTime`; no `try/catch`, so a throw skips the time update and
propagates with the state unchanged. -/
def seekTo (handle : Option Bool) (seconds : ℚ) (s : PlayerState) :
    Except PlayerState PlayerState :=
  match handle with
  | none => Except.ok s
  | some throws =>
    if throws then Except.error s
    else Except.ok { s with currentTime := seconds }

/-- The four localStorage slots (`lex_player_current`, `lex_player_queue`,
`lex_player_repeat`, `lex_player_shuffle`); `none` models an absent key. -/
structure Storage where
  currentSlot : Option Resource
  queueSlot : Option (List Resource)
  repeatSlot : Option Bool
  shuffleSlot : Option Bool
deriving DecidableEq, Repr

/-- The four `useEffect` writers that run after a state change: the current
resource is written only `if (currentResource)`, the queue only
`if (queue.length > 0)`, while the repeat and shuffle flags are written
unconditionally. -/
def saveToLocalStorage (s : PlayerState) (st : Storage) : Storage :=
  { currentSlot :=
      match s.currentResource with
      | some r => some r
      | none => st.currentSlot
    queueSlot := if s.queue.isEmpty then st.queueSlot else some s.queue
    repeatSlot := some s.isRepeat
    shuffleSlot := some s.isShuffle }

/-! ## Link classifier (`parseLink`) -/

/-- `export type ResourceType = 'youtube' | 'drive' | 'nextcloud' | 'podcast'
| 'unknown'`. -/
inductive ResourceType where
  | youtube
  | drive
  | nextcloud
  | podcast
  | unknown
deriving DecidableEq, Repr

/-- The record returned by `parseLink`. -/
structure ParsedLink where
  originalUrl : String
  processedUrl : String
  type : ResourceType
  id : Option String
deriving DecidableEq, Repr

/-- Does `s` start with `pat`? -/
def startsWithL : List Char → List Char → Bool
  | [], _ => true
  | _ :: _, [] => false
  | a :: as, b :: bs => a == b && startsWithL as bs

/-- JavaScript `String.prototype.includes`: does `pat` occur in `s`? -/
def containsSub (pat : List Char) : List Char → Bool
  | [] => pat.isEmpty
  | c :: rest => startsWithL pat (c :: rest) || containsSub pat rest

/-- JavaScript `String.prototype.endsWith`. -/
def endsWithL (pat s : List Char) : Bool :=
  startsWithL pat.reverse s.reverse

/-- The character class `[a-zA-Z0-9_-]` of the id-extraction regexes. -/
def isUrlWordChar (c : Char) : Bool :=
  c.isAlphanum || c == '_' || c == '-'

/-- First match of the regex `lit([a-zA-Z0-9_-]+)` in `s`: at the first
position where the literal `lit` is followed by at least one class character,
return that maximal run; like the regex engine, a position where the literal
matches but no class character follows is skipped. -/
def extractIdAfter (lit : List Char) : List Char → Option (List Char)
  | [] => none
  | c :: rest =>
    if startsWithL lit (c :: rest) then
      let run := ((c :: rest).drop lit.length).takeWhile isUrlWordChar
      if run.isEmpty then extractIdAfter lit rest else some run
    else extractIdAfter lit rest

/-- JavaScript `url.replace(/\/+$/, '')`: drop every trailing slash. -/
def stripTrailingSlashes (s : List Char) : List Char :=
  (s.reverse.dropWhile (fun c => c == '/')).reverse

/-- `parseLink` of the link classifier module, branch for branch:
youtube domains first (no rewriting); then `drive.google.com` with id
extraction via `/\/file\/d\/([a-zA-Z0-9_-]+)/` falling back to
`/id=([a-zA-Z0-9_-]+)/` and rewriting to the `uc?export=download` form when
an id is found; then share links containing `/s/` get `/download` appended
unless already present; otherwise unknown. -/
def parseLink (url : String) : ParsedLink :=
  let u := url.data
  if containsSub "youtube.com".data u || containsSub "youtu.be".data u then
    { originalUrl := url, processedUrl := url, type := ResourceType.youtube,
      id := none }
  else if containsSub "drive.google.com".data u then
    match (extractIdAfter "/file/d/".data u).orElse
        (fun _ => extractIdAfter "id=".data u) with
    | some idChars =>
      { originalUrl := url,
        processedUrl :=
          String.mk ("https://drive.google.com/uc?export=download&id=".data ++ idChars),
        type := ResourceType.drive, id := some (String.mk idChars) }
    | none =>
      { originalUrl := url, processedUrl := url, type := ResourceType.drive,
        id := none }
  else if containsSub "/s/".data u && !containsSub "drive.google.com".data u then
    { originalUrl := url,
      processedUrl :=
        if endsWithL "/download".data u then url
        else String.mk (stripTrailingSlashes u ++ "/download".data),
      type := ResourceType.nextcloud, id := none }
  else
    { originalUrl := url, processedUrl := url, type := ResourceType.unknown,
      id := none }

/-! ## Theorems -/

/-- C6: the status written by `updateProgress` is a pure function of the
`(playedSeconds, totalSeconds)` pair: `playedSeconds = 0` yields `new`;
`playedSeconds` at least 95% of a positive `totalSeconds` yields `watched`;
every other input yields `in_progress`; in particular `(96, 100)` yields
`watched` and `(50, 100)` yields `in_progress`. -/
theorem deriveStatus_pure_cases (played total : ℚ) :
    (played = 0 → deriveStatus played total = ResourceStatus.new) ∧
    (0 < total → total * (95 / 100) ≤ played →
      deriveStatus played total = ResourceStatus.watched) ∧
    (played ≠ 0 → ¬(0 < total ∧ total * (95 / 100) ≤ played) →
      deriveStatus played total = ResourceStatus.in_progress) ∧
    deriveStatus 96 100 = ResourceStatus.watched ∧
    deriveStatus 50 100 = ResourceStatus.in_progress := by
  refine ⟨?_, ?_, ?_, ?_, ?_⟩
  · intro h0
    subst h0
    have hnot : ¬(0 < total ∧ total * (95 / 100) ≤ (0 : ℚ)) := by
      rintro ⟨ht, hle⟩
      nlinarith
    simp [deriveStatus, hnot]
  · intro ht hle
    simp only [deriveStatus]
    rw [if_pos ⟨ht, hle⟩]
  · intro hne hnot
    simp only [deriveStatus]
    rw [if_neg hnot, if_neg hne]
  · norm_num [deriveStatus]
  · norm_num [deriveStatus]

/-- Witness for C6: at `(0, 100)` the derived status is `new`. -/
theorem deriveStatus_pure_cases_witness :
    deriveStatus 0 100 = ResourceStatus.new :=
  (deriveStatus_pure_cases 0 100).1 rfl

/-- C10: with `totalSeconds = 0` the status is never `watched` (the watched
check requires a positive total): `playedSeconds = 0` gives `new` and
`playedSeconds > 0` gives `in_progress`. -/
theorem deriveStatus_total_zero (played : ℚ) :
    deriveStatus played 0 ≠ ResourceStatus.watched ∧
    (played = 0 → deriveStatus played 0 = ResourceStatus.new) ∧
    (0 < played → deriveStatus played 0 = ResourceStatus.in_progress) := by
  have hnot : ¬(0 < (0 : ℚ) ∧ (0 : ℚ) * (95 / 100) ≤ played) := by
    rintro ⟨h, -⟩
    exact lt_irrefl 0 h
  refine ⟨?_, ?_, ?_⟩
  · simp only [deriveStatus]
    rw [if_neg hnot]
    split_ifs <;> decide
  · intro h0
    subst h0
    simp [deriveStatus, hnot]
  · intro hpos
    simp only [deriveStatus]
    rw [if_neg hnot, if_neg hpos.ne']

/-- Witness for C10: at `playedSeconds = 7`, `totalSeconds = 0` the status is
`in_progress`, not `watched`. -/
theorem deriveStatus_total_zero_witness :
    deriveStatus 7 0 = ResourceStatus.in_progress :=
  (deriveStatus_total_zero 7).2.2 (by norm_num)

/-- C2: `playResource(resource, queue?)` always sets the current item to
`resource` and playing to true; a given queue replaces the queue; with no
queue argument and an empty existing queue, the queue becomes `[resource]`.
(The operation is a total function: it never fails.) -/
theorem playResource_spec (resource : Resource)
    (newQueue : Option (List Resource)) (s : PlayerState) :
    (playResource resource newQueue s).currentResource = some resource ∧
    (playResource resource newQueue s).isPlaying = true ∧
    (∀ q, newQueue = some q → (playResource resource newQueue s).queue = q) ∧
    (newQueue = none → s.queue = [] →
      (playResource resource newQueue s).queue = [resource]) := by
  cases newQueue with
  | some q => simp [playResource]
  | none =>
    refine ⟨?_, ?_, ?_, ?_⟩
    · simp only [playResource]
      split <;> rfl
    · simp only [playResource]
      split <;> rfl
    · intro q hq
      exact absurd hq (by simp)
    · intro _ hq
      simp [playResource, hq]

/-- Witness for C2: playing a resource from the initial (empty-queue) state
seeds the one-item queue. -/
theorem playResource_spec_witness :
    (playResource (Resource.mk 5) none initialState).queue = [Resource.mk 5] :=
  (playResource_spec (Resource.mk 5) none initialState).2.2.2 rfl rfl

/-- Counterexample to C9 as stated: with an attached handle whose control
methods throw, `stopPlayback` lets the exception escape (`Except.error`)
and the session state has already been mutated at the moment of the throw,
contradicting both "catches and ignores" and "state left unchanged". -/
theorem stopPlayback_throw_cex :
    stopPlayback (some true)
        (PlayerState.mk (some (Resource.mk 1)) true false false [Resource.mk 1] 0) =
      Except.error
        (stopPlaybackState
          (PlayerState.mk (some (Resource.mk 1)) true false false [Resource.mk 1] 0)) ∧
    (stopPlaybackState
        (PlayerState.mk (some (Resource.mk 1)) true false false [Resource.mk 1] 0)).currentResource ≠
      (PlayerState.mk (some (Resource.mk 1)) true false false [Resource.mk 1] 0).currentResource :=
  ⟨rfl, by decide⟩

/-- C9 amended: with no handle attached, `togglePlay` and `seekTo` are silent
no-ops and `stopPlayback` still clears the session state; with an attached
handle that throws, each operation propagates the exception
(`Except.error`), leaving `togglePlay`'s and `seekTo`'s state unchanged
while `stopPlayback`'s state mutations have already been applied; with a
working handle, each succeeds. -/
theorem handleOps_spec (s : PlayerState) (t : ℚ) :
    togglePlay none s = Except.ok s ∧
    seekTo none t s = Except.ok s ∧
    stopPlayback none s = Except.ok (stopPlaybackState s) ∧
    togglePlay (some true) s = Except.error s ∧
    seekTo (some true) t s = Except.error s ∧
    stopPlayback (some true) s = Except.error (stopPlaybackState s) ∧
    togglePlay (some false) s = Except.ok s ∧
    seekTo (some false) t s = Except.ok { s with currentTime := t } :=
  ⟨rfl, rfl, rfl, rfl, rfl, rfl, rfl, rfl⟩

/-- Counterexample to C8 as stated: starting from a state and storage in
sync, `stopPlayback` clears the current item, but the localStorage writer
only writes the current slot when the item is non-null, so the slot keeps the
stale previous resource and no longer equals the in-memory value. -/
theorem saveToLocalStorage_stale_cex :
    (saveToLocalStorage
        (stopPlaybackState
          (PlayerState.mk (some (Resource.mk 1)) true false false [Resource.mk 1] 0))
        (saveToLocalStorage
          (PlayerState.mk (some (Resource.mk 1)) true false false [Resource.mk 1] 0)
          (Storage.mk none none none none))).currentSlot = some (Resource.mk 1) ∧
    (stopPlaybackState
        (PlayerState.mk (some (Resource.mk 1)) true false false [Resource.mk 1] 0)).currentResource =
      none := by
  decide

/-- C8 amended: after a state change the repeat and shuffle slots always
mirror the in-memory flags, and the current-item and queue slots mirror the
state whenever it is non-empty; when the current item is cleared or the queue
is empty, the corresponding slot is left untouched (stale). -/
theorem saveToLocalStorage_spec (s : PlayerState) (st : Storage) :
    (saveToLocalStorage s st).repeatSlot = some s.isRepeat ∧
    (saveToLocalStorage s st).shuffleSlot = some s.isShuffle ∧
    (∀ r, s.currentResource = some r →
      (saveToLocalStorage s st).currentSlot = some r) ∧
    (s.currentResource = none →
      (saveToLocalStorage s st).currentSlot = st.currentSlot) ∧
    (s.queue ≠ [] → (saveToLocalStorage s st).queueSlot = some s.queue) ∧
    (s.queue = [] → (saveToLocalStorage s st).queueSlot = st.queueSlot) := by
  cases hc : s.currentResource <;> cases hq : s.queue <;>
    simp [saveToLocalStorage, hc, hq]

/-- Witness for C8 amended: with an empty queue the queue slot keeps its old
(empty) value. -/
theorem saveToLocalStorage_spec_witness :
    (saveToLocalStorage initialState (Storage.mk none none none none)).queueSlot =
      none :=
  (saveToLocalStorage_spec initialState (Storage.mk none none none none)).2.2.2.2.2 rfl

/-- Counterexample to C1 as stated: in the queue `[r1, r1]` (the same
resource twice) the current item `r1` *is* the last element, shuffle and
repeat are off, yet `playNext` finds the id at index 0, advances to index 1
and leaves the playing flag true, whereas the claim demands playing = false. -/
theorem playNext_last_claim_cex :
    (PlayerState.mk (some (Resource.mk 1)) true false false
        [Resource.mk 1, Resource.mk 1] 0).queue.getLast? = some (Resource.mk 1) ∧
    (playNext []
        (PlayerState.mk (some (Resource.mk 1)) true false false
          [Resource.mk 1, Resource.mk 1] 0)).isPlaying = true ∧
    (playNext []
        (PlayerState.mk (some (Resource.mk 1)) true false false
          [Resource.mk 1, Resource.mk 1] 0)).currentResource = some (Resource.mk 1) := by
  decide

/-- C1 amended: with shuffle disabled and the *first occurrence* of the
current item's id sitting at the last queue position (as for any
duplicate-free queue whose last element is current), `playNext` leaves the
current item unchanged and clears the playing flag when repeat is off, and
moves to the first element with the playing flag unchanged (hence still true
if it was true) when repeat is on. -/
theorem playNext_last_spec (draws : List Nat) (s : PlayerState) (c : Resource)
    (hsh : s.isShuffle = false)
    (hc : s.currentResource = some c)
    (hne : s.queue ≠ [])
    (hlast : s.queue.findIdx (fun r => r.id == c.id) = s.queue.length - 1) :
    (s.isRepeat = false → (playNext draws s).currentResource = some c ∧
      (playNext draws s).isPlaying = false) ∧
    (s.isRepeat = true → (playNext draws s).currentResource = s.queue.head? ∧
      (playNext draws s).isPlaying = s.isPlaying) := by
  have hlen : 0 < s.queue.length := List.length_pos.mpr hne
  have hempty : s.queue.isEmpty = false := List.isEmpty_eq_false.mpr hne
  have hnadv : ¬(s.queue.findIdx (fun r => r.id == c.id) + 1 < s.queue.length) := by
    rw [hlast]
    omega
  constructor
  · intro hrep
    simp [playNext, hc, hsh, hempty, hnadv, hrep]
  · intro hrep
    simp [playNext, hc, hsh, hempty, hnadv, hrep]

/-- Witness for C1 amended: queue `[r1, r2]`, current `r2`, repeat off —
`playNext` clears the playing flag. -/
theorem playNext_last_spec_witness :
    (playNext []
        (PlayerState.mk (some (Resource.mk 2)) true false false
          [Resource.mk 1, Resource.mk 2] 0)).isPlaying = false :=
  ((playNext_last_spec []
      (PlayerState.mk (some (Resource.mk 2)) true false false
        [Resource.mk 1, Resource.mk 2] 0)
      (Resource.mk 2) rfl rfl (by decide) (by decide)).1 rfl).2

/-- Counterexample to C3 as stated: current item id 1 does not occur in the
queue `[r2]`, shuffle and repeat are off, yet `playNext` is not a no-op: it
clears the playing flag. -/
theorem playNext_missingId_cex :
    (∀ r ∈ (PlayerState.mk (some (Resource.mk 1)) true false false
        [Resource.mk 2] 0).queue, r.id ≠ 1) ∧
    (PlayerState.mk (some (Resource.mk 1)) true false false
        [Resource.mk 2] 0).isPlaying = true ∧
    (playNext []
        (PlayerState.mk (some (Resource.mk 1)) true false false
          [Resource.mk 2] 0)).isPlaying = false := by
  decide

/-- C3 amended: when the current item's id occurs nowhere in the queue and
shuffle is off, `playNext` is a no-op only for the empty queue; for a
non-empty queue it leaves the queue unchanged but jumps to the first element
(playing unchanged) when repeat is on, and keeps the current item while
clearing the playing flag when repeat is off. -/
theorem playNext_missingId_spec (draws : List Nat) (s : PlayerState) (c : Resource)
    (hc : s.currentResource = some c)
    (hsh : s.isShuffle = false)
    (hmiss : ∀ r ∈ s.queue, r.id ≠ c.id) :
    (s.queue = [] → playNext draws s = s) ∧
    (s.queue ≠ [] →
      (playNext draws s).queue = s.queue ∧
      (s.isRepeat = true → (playNext draws s).currentResource = s.queue.head? ∧
        (playNext draws s).isPlaying = s.isPlaying) ∧
      (s.isRepeat = false → (playNext draws s).currentResource = some c ∧
        (playNext draws s).isPlaying = false)) := by
  have hfind : s.queue.findIdx (fun r => r.id == c.id) = s.queue.length := by
    rw [List.findIdx_eq_length]
    intro r hr
    simpa using hmiss r hr
  constructor
  · intro hq
    simp [playNext, hc, hq]
  · intro hne
    have hempty : s.queue.isEmpty = false := List.isEmpty_eq_false.mpr hne
    have hnadv : ¬(s.queue.findIdx (fun r => r.id == c.id) + 1 < s.queue.length) := by
      rw [hfind]
      omega
    refine ⟨?_, ?_, ?_⟩
    · cases hrep : s.isRepeat <;> simp [playNext, hc, hsh, hempty, hnadv, hrep]
    · intro hrep
      simp [playNext, hc, hsh, hempty, hnadv, hrep]
    · intro hrep
      simp [playNext, hc, hsh, hempty, hnadv, hrep]

/-- Witness for C3 amended: current id 5 absent from `[r2, r3]`, repeat off —
`playNext` clears the playing flag while keeping the current item. -/
theorem playNext_missingId_spec_witness :
    (playNext []
        (PlayerState.mk (some (Resource.mk 5)) true false false
          [Resource.mk 2, Resource.mk 3] 0)).isPlaying = false :=
  (((playNext_missingId_spec []
      (PlayerState.mk (some (Resource.mk 5)) true false false
        [Resource.mk 2, Resource.mk 3] 0)
      (Resource.mk 5) rfl rfl (by decide)).2 (by decide)).2.2 rfl).2

/-- Counterexample to C4 as stated: current item id 1 does not occur in the
queue `[r2, r3]` and repeat is enabled; the claim requires a no-op, but
`playPrev` wraps to the last element `r3`. -/
theorem playPrev_missingId_cex :
    (∀ r ∈ (PlayerState.mk (some (Resource.mk 1)) true true false
        [Resource.mk 2, Resource.mk 3] 0).queue, r.id ≠ 1) ∧
    (playPrev
        (PlayerState.mk (some (Resource.mk 1)) true true false
          [Resource.mk 2, Resource.mk 3] 0)).currentResource = some (Resource.mk 3) := by
  decide

/-- C4 amended: with a current item and a non-empty queue, `playPrev` moves
to the element just before the first occurrence of the current id when that
occurrence exists at a positive index; when the first occurrence is at index
0 *or the id does not occur at all*, repeat enabled wraps to the last
element and repeat disabled is a no-op; the playing flag and the queue are
never changed. -/
theorem playPrev_spec (s : PlayerState) (c : Resource)
    (hc : s.currentResource = some c)
    (hne : s.queue ≠ []) :
    (0 < s.queue.findIdx (fun r => r.id == c.id) →
      s.queue.findIdx (fun r => r.id == c.id) < s.queue.length →
      (playPrev s).currentResource =
        s.queue.get? (s.queue.findIdx (fun r => r.id == c.id) - 1)) ∧
    ((s.queue.findIdx (fun r => r.id == c.id) = 0 ∨
        s.queue.findIdx (fun r => r.id == c.id) = s.queue.length) →
      (s.isRepeat = true → (playPrev s).currentResource = s.queue.getLast?) ∧
      (s.isRepeat = false → playPrev s = s)) ∧
    (playPrev s).isPlaying = s.isPlaying ∧
    (playPrev s).queue = s.queue := by
  have hempty : s.queue.isEmpty = false := List.isEmpty_eq_false.mpr hne
  refine ⟨?_, ?_, ?_, ?_⟩
  · intro h1 h2
    have hcond : 0 < s.queue.findIdx (fun r => r.id == c.id) ∧
        s.queue.findIdx (fun r => r.id == c.id) < s.queue.length := ⟨h1, h2⟩
    simp only [playPrev, hc, hempty, Bool.false_eq_true, if_false]
    rw [dif_pos hcond]
    rw [List.get?_eq_get (show s.queue.findIdx (fun r => r.id == c.id) - 1 <
      s.queue.length by omega)]
  · intro hdisj
    have hncond : ¬(0 < s.queue.findIdx (fun r => r.id == c.id) ∧
        s.queue.findIdx (fun r => r.id == c.id) < s.queue.length) := by
      rcases hdisj with h | h <;> omega
    constructor
    · intro hrep
      simp only [playPrev, hc, hempty, Bool.false_eq_true, if_false]
      rw [dif_neg hncond]
      simp [hrep]
    · intro hrep
      simp only [playPrev, hc, hempty, Bool.false_eq_true, if_false]
      rw [dif_neg hncond]
      simp [hrep]
  · by_cases hcond : 0 < s.queue.findIdx (fun r => r.id == c.id) ∧
        s.queue.findIdx (fun r => r.id == c.id) < s.queue.length
    · simp only [playPrev, hc, hempty, Bool.false_eq_true, if_false]
      rw [dif_pos hcond]
    · simp only [playPrev, hc, hempty, Bool.false_eq_true, if_false]
      rw [dif_neg hcond]
      cases hrep : s.isRepeat <;> simp [hrep]
  · by_cases hcond : 0 < s.queue.findIdx (fun r => r.id == c.id) ∧
        s.queue.findIdx (fun r => r.id == c.id) < s.queue.length
    · simp only [playPrev, hc, hempty, Bool.false_eq_true, if_false]
      rw [dif_pos hcond]
    · simp only [playPrev, hc, hempty, Bool.false_eq_true, if_false]
      rw [dif_neg hcond]
      cases hrep : s.isRepeat <;> simp [hrep]

/-- Witness for C4 amended: queue `[r2, r3]`, current `r3` — `playPrev`
steps back to the element before it. -/
theorem playPrev_spec_witness :
    (playPrev
        (PlayerState.mk (some (Resource.mk 3)) true false false
          [Resource.mk 2, Resource.mk 3] 0)).currentResource =
      (PlayerState.mk (some (Resource.mk 3)) true false false
          [Resource.mk 2, Resource.mk 3] 0).queue.get?
        ((PlayerState.mk (some (Resource.mk 3)) true false false
          [Resource.mk 2, Resource.mk 3] 0).queue.findIdx
            (fun r => r.id == (Resource.mk 3).id) - 1) :=
  (playPrev_spec
      (PlayerState.mk (some (Resource.mk 3)) true false false
        [Resource.mk 2, Resource.mk 3] 0)
      (Resource.mk 3) rfl (by decide)).1 (by decide) (by decide)

/-- On the one-element queue `[c]` with current item `c`, the shuffle loop
can only return `c` (the `while` guard is off since the length is 1). -/
theorem shufflePick_singleton (c r : Resource) :
    ∀ draws : List Nat, shufflePick [c] c draws = some r → r = c := by
  intro draws
  induction draws with
  | nil =>
    intro h
    simp [shufflePick] at h
  | cons d rest ih =>
    intro h
    simp only [shufflePick] at h
    split at h
    · rw [if_neg] at h
      · injection h with h
        exact h.symm.trans (by simp [List.get])
      · rintro ⟨h1, -⟩
        simp at h1
    · simp at h

/-- Counterexample to C5 as stated: queue `[r1]` of length 1 with shuffle
enabled but current item `r2` not in the queue — `playNext` replaces the
current item by `r1` (the single draw `0` is the only possible outcome of
`Math.floor(Math.random() * 1)`), so the current item is not left
unchanged. -/
theorem playNext_singleton_shuffle_cex :
    (PlayerState.mk (some (Resource.mk 2)) true false true [Resource.mk 1] 0).queue.length = 1 ∧
    (PlayerState.mk (some (Resource.mk 2)) true false true
        [Resource.mk 1] 0).isShuffle = true ∧
    (playNext [0]
        (PlayerState.mk (some (Resource.mk 2)) true false true
          [Resource.mk 1] 0)).currentResource = some (Resource.mk 1) ∧
    (PlayerState.mk (some (Resource.mk 2)) true false true
        [Resource.mk 1] 0).currentResource = some (Resource.mk 2) := by
  decide

/-- C5 amended: on a queue of length 1 with shuffle enabled whose single
element *is* the current item, `playNext` leaves the current item unchanged
for every outcome of the random index draws. -/
theorem playNext_singleton_shuffle (draws : List Nat) (s : PlayerState) (c : Resource)
    (hsh : s.isShuffle = true)
    (hc : s.currentResource = some c)
    (hq : s.queue = [c]) :
    (playNext draws s).currentResource = some c := by
  cases hpick : shufflePick [c] c draws with
  | none => simp [playNext, hc, hq, hsh, hpick]
  | some r =>
    have hr : r = c := shufflePick_singleton c r draws hpick
    subst hr
    simp [playNext, hc, hq, hsh, hpick]

/-- Witness for C5 amended: queue `[r1]`, current `r1`, draw `0` — the
current item is unchanged. -/
theorem playNext_singleton_shuffle_witness :
    (playNext [0]
        (PlayerState.mk (some (Resource.mk 1)) true false true
          [Resource.mk 1] 0)).currentResource = some (Resource.mk 1) :=
  playNext_singleton_shuffle [0]
    (PlayerState.mk (some (Resource.mk 1)) true false true [Resource.mk 1] 0)
    (Resource.mk 1) rfl rfl rfl

/-- Counterexample to C7 as stated: the URL
`https://drive.google.com/drive/my-drive` matches the cloud-drive domain,
but no file id matches the fixed patterns, so `parseLink` leaves
`processedUrl` equal to the original URL and extracts no id, instead of
rewriting to the direct-download form as the claim requires. -/
theorem parseLink_drive_norewrite_cex :
    containsSub "drive.google.com".data
        "https://drive.google.com/drive/my-drive".data = true ∧
    (parseLink "https://drive.google.com/drive/my-drive").type = ResourceType.drive ∧
    (parseLink "https://drive.google.com/drive/my-drive").processedUrl =
      "https://drive.google.com/drive/my-drive" ∧
    (parseLink "https://drive.google.com/drive/my-drive").id = none ∧
    containsSub "uc?export=download".data
      (parseLink "https://drive.google.com/drive/my-drive").processedUrl.data = false := by
  decide

/-- C7 amended: `parseLink` classifies in order — video-site domain match
gives type `youtube` with the URL unchanged; otherwise cloud-drive domain
match gives type `drive`, rewriting `processedUrl` to the direct-download
form *when one of the two id patterns matches* and leaving it equal to the
original URL (with no id) otherwise; otherwise a `/s/` path segment gives
type `nextcloud` with `/download` appended (after stripping trailing
slashes) unless already present; otherwise type `unknown` with
`processedUrl = originalUrl`.  The spec's three concrete examples evaluate
as claimed. -/
theorem parseLink_classification (url : String) :
    (parseLink url).originalUrl = url ∧
    ((containsSub "youtube.com".data url.data ||
        containsSub "youtu.be".data url.data) = true →
      (parseLink url).type = ResourceType.youtube ∧
      (parseLink url).processedUrl = url ∧ (parseLink url).id = none) ∧
    ((containsSub "youtube.com".data url.data ||
        containsSub "youtu.be".data url.data) = false →
      containsSub "drive.google.com".data url.data = true →
      (∀ cs, (extractIdAfter "/file/d/".data url.data).orElse
          (fun _ => extractIdAfter "id=".data url.data) = some cs →
        (parseLink url).type = ResourceType.drive ∧
        (parseLink url).processedUrl =
          String.mk ("https://drive.google.com/uc?export=download&id=".data ++ cs) ∧
        (parseLink url).id = some (String.mk cs)) ∧
      ((extractIdAfter "/file/d/".data url.data).orElse
          (fun _ => extractIdAfter "id=".data url.data) = none →
        (parseLink url).type = ResourceType.drive ∧
        (parseLink url).processedUrl = url ∧ (parseLink url).id = none)) ∧
    ((containsSub "youtube.com".data url.data ||
        containsSub "youtu.be".data url.data) = false →
      containsSub "drive.google.com".data url.data = false →
      containsSub "/s/".data url.data = true →
      (parseLink url).type = ResourceType.nextcloud ∧
      (endsWithL "/download".data url.data = true →
        (parseLink url).processedUrl = url) ∧
      (endsWithL "/download".data url.data = false →
        (parseLink url).processedUrl =
          String.mk (stripTrailingSlashes url.data ++ "/download".data))) ∧
    ((containsSub "youtube.com".data url.data ||
        containsSub "youtu.be".data url.data) = false →
      containsSub "drive.google.com".data url.data = false →
      containsSub "/s/".data url.data = false →
      (parseLink url).type = ResourceType.unknown ∧
      (parseLink url).processedUrl = url) ∧
    parseLink "https://youtu.be/abc12345678" =
      ParsedLink.mk "https://youtu.be/abc12345678" "https://youtu.be/abc12345678"
        ResourceType.youtube none ∧
    parseLink "https://drive.google.com/file/d/XYZ/view" =
      ParsedLink.mk "https://drive.google.com/file/d/XYZ/view"
        "https://drive.google.com/uc?export=download&id=XYZ"
        ResourceType.drive (some "XYZ") ∧
    parseLink "https://cloud.example.com/s/token" =
      ParsedLink.mk "https://cloud.example.com/s/token"
        "https://cloud.example.com/s/token/download"
        ResourceType.nextcloud none := by
  refine ⟨?_, ?_, ?_, ?_, ?_, by decide, by decide, by decide⟩
  · simp only [parseLink]
    split
    · rfl
    · split
      · split <;> rfl
      · split <;> rfl
  · intro hyt
    simp [parseLink, hyt]
  · intro hyt hdrive
    constructor
    · intro cs hcs
      simp [parseLink, hyt, hdrive, hcs]
    · intro hcs
      simp [parseLink, hyt, hdrive, hcs]
  · intro hyt hdrive hs
    refine ⟨?_, ?_, ?_⟩
    · simp [parseLink, hyt, hdrive, hs]
    · intro hend
      simp [parseLink, hyt, hdrive, hs, hend]
    · intro hend
      simp [parseLink, hyt, hdrive, hs, hend]
  · intro hyt hdrive hs
    simp [parseLink, hyt, hdrive, hs]

/-- Witness for C7 amended: the video-site case at the spec's example URL. -/
theorem parseLink_classification_witness :
    (parseLink "https://youtu.be/abc12345678").type = ResourceType.youtube :=
  ((parseLink_classification "https://youtu.be/abc12345678").2.1 (by decide)).1

end LexMedia
